import Mathlib

/-!
Verification development for the clip-source / mask-bounds core of
`webrender/src/clip.rs`.

Coordinates are embedded as rationals (`ℚ`): every operation the code performs
on them (comparison, `min`/`max`, addition, subtraction, doubling) is modelled
exactly.  Rectangle types (`LayerRect`, `DeviceIntRect` and friends) come from
the `euclid` crate; their `intersection`/`intersects`/`translate` semantics are
reproduced below.  `util::extract_inner_rect_safe` and `util::TransformedRect`
live in `util.rs`, which is not among the provided sources; they are modelled
from the specification, as marked on their doc comments.  The `GpuCache`,
`ResourceCache` and `MaskCacheInfo` collaborators are external to the bounds
algorithm; the calls `update` makes to them are modelled as an emitted effect
list.
-/

/-- A rectangle with origin `(x, y)` and size `(w, h)`, mirroring euclid's
`TypedRect<f32>` (used for `LayerRect`). -/
structure Rect where
  x : ℚ
  y : ℚ
  w : ℚ
  h : ℚ
deriving DecidableEq

/-- Rust `LayerRect::zero()`: origin and size all zero. -/
def Rect.zero : Rect := ⟨0, 0, 0, 0⟩

/-- euclid `Rect::intersects`: strict overlap test on both axes. -/
def Rect.intersects (a b : Rect) : Bool :=
  decide (a.x < b.x + b.w) && decide (b.x < a.x + a.w) &&
  decide (a.y < b.y + b.h) && decide (b.y < a.y + a.h)

/-- euclid `Rect::intersection`: `None` unless the rectangles strictly
overlap, otherwise the rectangle from the componentwise max of origins to the
componentwise min of far corners. -/
def Rect.intersection (a b : Rect) : Option Rect :=
  if a.intersects b then
    let ux := max a.x b.x
    let uy := max a.y b.y
    some ⟨ux, uy, min (a.x + a.w) (b.x + b.w) - ux, min (a.y + a.h) (b.y + b.h) - uy⟩
  else
    none

/-- A 2-D point / vector (euclid `TypedPoint2D<f32>` / `TypedVector2D<f32>`). -/
structure Point where
  x : ℚ
  y : ℚ
deriving DecidableEq

/-- euclid `Rect::translate`: move the origin by a vector, keep the size. -/
def Rect.translate (r : Rect) (v : Point) : Rect :=
  ⟨r.x + v.x, r.y + v.y, r.w, r.h⟩

/-- A 2-D size (euclid `TypedSize2D<f32>`), used for per-corner radii. -/
structure Size where
  width : ℚ
  height : ℚ
deriving DecidableEq

/-- The `api::BorderRadius` type: one size per corner. -/
structure BorderRadius where
  top_left : Size
  top_right : Size
  bottom_left : Size
  bottom_right : Size
deriving DecidableEq

/-- The `api::ImageMask` type: an image key (modelled as a natural number), the mask
rectangle, and the repeat flag (field `repeat` in the source; `repeat` is a
keyword here, hence `repeating`). -/
structure ImageMask where
  image : ℕ
  rect : Rect
  repeating : Bool
deriving DecidableEq

/-- The `api::ComplexClipRegion` type: a rounded rectangle given by its bounding
rectangle and the per-corner radii. -/
structure ComplexClipRegion where
  rect : Rect
  radii : BorderRadius
deriving DecidableEq

/-- The `border::BorderCornerClipSource` type is opaque to the bounds algorithm; only
its presence matters here, so it is modelled as a bare identifier. -/
structure BorderCornerClipSource where
  id : ℕ
deriving DecidableEq

/-- The `ClipMode` enum from clip.rs. -/
inductive ClipMode where
  | Clip
  | ClipOut
deriving DecidableEq

/-- Rust `impl Not for ClipMode`: swap the two modes. -/
def ClipMode.not : ClipMode → ClipMode
  | ClipMode.Clip => ClipMode.ClipOut
  | ClipMode.ClipOut => ClipMode.Clip

/-- The `ClipSource` enum from clip.rs: one geometric clip constraint. -/
inductive ClipSource where
  | Rectangle (rect : Rect)
  | RoundedRectangle (rect : Rect) (radii : BorderRadius) (mode : ClipMode)
  | Image (mask : ImageMask)
  | BorderCorner (src : BorderCornerClipSource)
deriving DecidableEq

/-- The `ClipRegion` struct from clip.rs. -/
structure ClipRegion where
  origin : Point
  main : Rect
  image_mask : Option ImageMask
  complex_clips : List ComplexClipRegion
deriving DecidableEq

/-- Rust `ClipRegion::create_for_clip_node`: translate the image-mask rectangle and
every complex clip's rectangle by the negated origin of `rect`, record that
origin, and place the main rectangle (of `rect`'s size) at the zero origin. -/
def ClipRegion.create_for_clip_node (rect : Rect)
    (complex_clips : List ComplexClipRegion)
    (image_mask : Option ImageMask) : ClipRegion :=
  let negative_origin : Point := ⟨-rect.x, -rect.y⟩
  { origin := ⟨rect.x, rect.y⟩
    main := ⟨0, 0, rect.w, rect.h⟩
    image_mask := image_mask.map fun m => { m with rect := m.rect.translate negative_origin }
    complex_clips := complex_clips.map fun c => { c with rect := c.rect.translate negative_origin } }

/-- The `MAX_CLIP` constant from clip.rs. -/
def MAX_CLIP : ℚ := 1000000

/-- The initial accumulator rectangle of `ClipSources::update`: a very large
rectangle centred at the origin. -/
def maxClipRect : Rect := ⟨-MAX_CLIP, -MAX_CLIP, 2 * MAX_CLIP, 2 * MAX_CLIP⟩

/-- Modelled from the spec: `util::extract_inner_rect_safe` (util.rs is not
among the provided sources).  "Produces the largest axis-aligned rectangle
provably inside a rectangle with independently-sized corner radii, by
insetting each edge by the maximum radius component touching that edge.
Returns nothing if radii collapse the result to zero or negative extent.  Must
be conservative: never return a rectangle that extends into a rounded corner."
Insets are taken as nonnegative (corner radii are nonnegative quantities), so
the conservativity requirement — the result never reaches outside the given
rectangle — holds by construction. -/
def extract_inner_rect_safe (rect : Rect) (radii : BorderRadius) : Option Rect :=
  let xl := max 0 (max radii.top_left.width radii.bottom_left.width)
  let xr := max 0 (max radii.top_right.width radii.bottom_right.width)
  let yt := max 0 (max radii.top_left.height radii.top_right.height)
  let yb := max 0 (max radii.bottom_left.height radii.bottom_right.height)
  let w := rect.w - xl - xr
  let h := rect.h - yt - yb
  if 0 < w ∧ 0 < h then some ⟨rect.x + xl, rect.y + yt, w, h⟩ else none

/-- Modelled from the spec: `util::TransformedRect` (util.rs is not among the
provided sources).  The spec's projection contract: the outer device rectangle
is the bounding box of the transformed corners and the inner device rectangle
is the largest rectangle inside the transformed shape; "for a pure
translation+uniform-scale transform this equals the same transformed
rectangle".  The transform is accordingly modelled as a translation combined
with a uniform scale, for which both projections coincide with the transformed
rectangle scaled by the device pixel ratio. -/
structure LayerToWorldTransform where
  scale : ℚ
  tx : ℚ
  ty : ℚ
deriving DecidableEq

/-- Modelled from the spec: the projection primitive of §4.2, specialised to
the translation+uniform-scale transforms of `LayerToWorldTransform`; returns
the (outer, inner) device rectangles, which coincide for this transform
class. -/
def projectRect (r : Rect) (t : LayerToWorldTransform) (dpr : ℚ) : Rect × Rect :=
  let d : Rect := ⟨(r.x * t.scale + t.tx) * dpr, (r.y * t.scale + t.ty) * dpr,
                   r.w * t.scale * dpr, r.h * t.scale * dpr⟩
  (d, d)

/-- The `Geometry` struct from clip.rs: a local rectangle plus its most recently computed
device-space rectangle (the device rectangle is modelled with rational
coordinates). -/
structure Geometry where
  local_rect : Rect
  device_rect : Rect
deriving DecidableEq

/-- Rust `impl From<LayerRect> for Geometry`: the device rectangle starts at
zero. -/
def Geometry.ofLocal (r : Rect) : Geometry :=
  { local_rect := r, device_rect := Rect.zero }

/-- The `MaskBounds` struct from clip.rs. -/
structure MaskBounds where
  outer : Option Geometry
  inner : Option Geometry
deriving DecidableEq

/-- Rust `MaskBounds::update`: re-derive the device rectangle of whichever of
`outer`/`inner` is present; outer takes the projection's bounding rectangle,
inner its inner rectangle. -/
def MaskBounds.update (mb : MaskBounds) (t : LayerToWorldTransform) (dpr : ℚ) : MaskBounds :=
  { outer := mb.outer.map fun g => { g with device_rect := (projectRect g.local_rect t dpr).1 }
    inner := mb.inner.map fun g => { g with device_rect := (projectRect g.local_rect t dpr).2 } }

/-- The local variables of the source walk in `ClipSources::update`. -/
structure ClipWalkState where
  local_rect : Option Rect
  local_inner : Option Rect
  has_clip_out : Bool
  has_border_clip : Bool
deriving DecidableEq

/-- The `for source in &self.clips` loop of `ClipSources::update`, lines
152–181 of clip.rs; a `ClipOut`-mode rounded rectangle `break`s out of the
loop. -/
def walkClips : List ClipSource → ClipWalkState → ClipWalkState
  | [], st => st
  | ClipSource.Image mask :: rest, st =>
      walkClips rest
        { st with
          local_rect :=
            if mask.repeating then st.local_rect
            else st.local_rect.bind fun r => r.intersection mask.rect
          local_inner := none }
  | ClipSource.Rectangle rect :: rest, st =>
      walkClips rest
        { st with
          local_rect := st.local_rect.bind fun r => r.intersection rect
          local_inner := st.local_inner.bind fun r => r.intersection rect }
  | ClipSource.RoundedRectangle rect radii mode :: rest, st =>
      if mode = ClipMode.ClipOut then
        { st with has_clip_out := true }
      else
        walkClips rest
          { st with
            local_rect := st.local_rect.bind fun r => r.intersection rect
            local_inner := st.local_inner.bind fun r =>
              (extract_inner_rect_safe rect radii).bind fun inner => r.intersection inner }
  | ClipSource.BorderCorner _ :: rest, st =>
      walkClips rest { st with has_border_clip := true }

/-- The initial walk state of `ClipSources::update`, lines 146–150 of clip.rs:
both accumulators hold the very large rectangle, no flag is set. -/
def initWalkState : ClipWalkState :=
  { local_rect := some maxClipRect
    local_inner := some maxClipRect
    has_clip_out := false
    has_border_clip := false }

/-- The "compute the local bounds" block of `ClipSources::update` (lines
145–197 of clip.rs): walk the sources from the large initial accumulators,
then either the conservative fallback (`outer = None`, `inner = Some(zero)`)
when a clip-out or border clip was seen, or the accumulated rectangles
(defaulting to zero when an accumulator was lost). -/
def computeLocalBounds (clips : List ClipSource) : MaskBounds :=
  let st := walkClips clips initWalkState
  if st.has_clip_out || st.has_border_clip then
    { outer := none, inner := some (Geometry.ofLocal Rect.zero) }
  else
    { outer := some (Geometry.ofLocal (st.local_rect.getD Rect.zero))
      inner := some (Geometry.ofLocal (st.local_inner.getD Rect.zero)) }

/-- The `ClipSources` struct from clip.rs.  The `mask_cache_info` collaborator state is
external (mask_cache.rs); the calls made to it are modelled as effects of
`ClipSources.update`. -/
structure ClipSources where
  clips : List ClipSource
  bounds : MaskBounds
deriving DecidableEq

/-- Rust `ClipSources::new`: both bounds start absent. -/
def ClipSources.new (clips : List ClipSource) : ClipSources :=
  { clips := clips, bounds := { outer := none, inner := none } }

/-- Rust `impl From<ClipRegion> for ClipSources`: optional image source first, then
the main rectangle, then one `Clip`-mode rounded rectangle per complex
region. -/
def ClipSources.ofRegion (region : ClipRegion) : ClipSources :=
  let clips :=
    (match region.image_mask with
     | some info => [ClipSource.Image info]
     | none => []) ++
    [ClipSource.Rectangle region.main] ++
    region.complex_clips.map fun complex =>
      ClipSource.RoundedRectangle complex.rect complex.radii ClipMode.Clip
  ClipSources.new clips

/-- The outward-visible calls `ClipSources::update` makes to its
collaborators: the mask-parameter rebuild (`MaskCacheInfo::update`) and one
`ResourceCache::request_image` per image source. -/
inductive Effect where
  | maskUpdate : Effect
  | requestImage (key : ℕ) : Effect
deriving DecidableEq

/-- Rust `ClipSources::update` (lines 135–212 of clip.rs): no-op on an empty source
list; otherwise compute the local bounds once (guarded by `inner` being
absent), re-derive the device rectangles with the current transform, rebuild
the mask parameters, and request every image mask's texture.  Returns the new
state together with the collaborator calls performed. -/
def ClipSources.update (cs : ClipSources) (t : LayerToWorldTransform) (dpr : ℚ) :
    ClipSources × List Effect :=
  if cs.clips.isEmpty then
    (cs, [])
  else
    let bounds0 := if cs.bounds.inner.isNone then computeLocalBounds cs.clips else cs.bounds
    let bounds1 := bounds0.update t dpr
    ({ cs with bounds := bounds1 },
     Effect.maskUpdate ::
       cs.clips.filterMap fun clip =>
         match clip with
         | ClipSource.Image mask => some (Effect.requestImage mask.image)
         | _ => none)

/-- A sequence of `update` calls, threading the state. -/
def ClipSources.updateSeq (cs : ClipSources) : List (LayerToWorldTransform × ℚ) → ClipSources
  | [] => cs
  | (t, dpr) :: rest => ((cs.update t dpr).1).updateSeq rest

/-- Point-set emptiness of a rectangle: zero or negative extent. -/
def Rect.IsEmptyRect (r : Rect) : Prop := r.w ≤ 0 ∨ r.h ≤ 0

/-- Rectangle `a` is contained in `b`: either `a` is degenerate (the empty point set is
contained in everything) or `b` encloses `a` componentwise. -/
def Rect.Subset (a b : Rect) : Prop :=
  a.IsEmptyRect ∨
    (b.x ≤ a.x ∧ b.y ≤ a.y ∧ a.x + a.w ≤ b.x + b.w ∧ a.y + a.h ≤ b.y + b.h)

instance : DecidablePred Rect.IsEmptyRect := fun r =>
  inferInstanceAs (Decidable (r.w ≤ 0 ∨ r.h ≤ 0))

instance (a b : Rect) : Decidable (a.Subset b) :=
  inferInstanceAs (Decidable (_ ∨ _))

/-- Containment on the optional accumulators: `none` stands for the empty
region on the left and for the empty region on the right as well (so a
non-degenerate rectangle is never contained in `none`). -/
def OptSubset : Option Rect → Option Rect → Prop
  | none, _ => True
  | some a, none => a.IsEmptyRect
  | some a, some b => a.Subset b

/-- The intersection of all rectangles of a list of sources, as the spec's
testable property words it: each `Rectangle` contributes its rectangle and
each `RoundedRectangle` its bounding rectangle. -/
def sourceRects (clips : List ClipSource) : List Rect :=
  clips.filterMap fun c =>
    match c with
    | ClipSource.Rectangle r => some r
    | ClipSource.RoundedRectangle r _ _ => some r
    | _ => none

/-- The exact intersection of a nonempty list of rectangles, an empty result
being `none`; stated from the spec's words for comparison with what the code
computes. -/
def exactIntersection : List Rect → Option Rect
  | [] => none
  | r :: rs => rs.foldl (fun acc s => acc.bind fun a => a.intersection s) (some r)

/-- A source that is a plain rectangle or a `Clip`-mode rounded rectangle. -/
def OnlyRectangular : ClipSource → Prop
  | ClipSource.Rectangle _ => True
  | ClipSource.RoundedRectangle _ _ mode => mode = ClipMode.Clip
  | _ => False

instance : DecidablePred OnlyRectangular := fun c =>
  match c with
  | ClipSource.Rectangle _ => isTrue trivial
  | ClipSource.RoundedRectangle _ _ mode =>
      inferInstanceAs (Decidable (mode = ClipMode.Clip))
  | ClipSource.Image _ => isFalse id
  | ClipSource.BorderCorner _ => isFalse id

/-! ### Helper lemmas -/

theorem Rect.intersects_iff {a b : Rect} :
    a.intersects b = true ↔
      a.x < b.x + b.w ∧ b.x < a.x + a.w ∧ a.y < b.y + b.h ∧ b.y < a.y + a.h := by
  simp [Rect.intersects, and_assoc]

theorem MaskBounds.update_outer_local (mb : MaskBounds) (t : LayerToWorldTransform) (dpr : ℚ) :
    (mb.update t dpr).outer.map Geometry.local_rect = mb.outer.map Geometry.local_rect := by
  rcases mb with ⟨o, i⟩
  cases o <;> simp [MaskBounds.update]

theorem MaskBounds.update_inner_local (mb : MaskBounds) (t : LayerToWorldTransform) (dpr : ℚ) :
    (mb.update t dpr).inner.map Geometry.local_rect = mb.inner.map Geometry.local_rect := by
  rcases mb with ⟨o, i⟩
  cases i <;> simp [MaskBounds.update]

theorem MaskBounds.update_inner_isSome (mb : MaskBounds) (t : LayerToWorldTransform) (dpr : ℚ) :
    (mb.update t dpr).inner.isSome = mb.inner.isSome := by
  rcases mb with ⟨o, i⟩
  cases i <;> simp [MaskBounds.update]

theorem MaskBounds.update_update (mb : MaskBounds) (t1 t2 : LayerToWorldTransform) (d1 d2 : ℚ) :
    (mb.update t1 d1).update t2 d2 = mb.update t2 d2 := by
  rcases mb with ⟨o, i⟩
  cases o <;> cases i <;> simp [MaskBounds.update]

theorem ClipSources.update_clips_eq (cs : ClipSources) (t : LayerToWorldTransform) (dpr : ℚ) :
    ((cs.update t dpr).1).clips = cs.clips := by
  unfold ClipSources.update
  split <;> rfl

theorem computeLocalBounds_inner_isSome (clips : List ClipSource) :
    (computeLocalBounds clips).inner.isSome = true := by
  cases h : (walkClips clips initWalkState).has_clip_out ||
      (walkClips clips initWalkState).has_border_clip <;>
    simp [computeLocalBounds, h]

/-! ### Claims C5, C6, C8, C9 -/

/-- C5: converting a `ClipRegion` into a `ClipSources` yields the optional
image mask first, then the main rectangle as a `Rectangle` source, then one
`Clip`-mode `RoundedRectangle` per complex region in original order; the
length is `(1 if a mask is present else 0) + 1 + the number of rounded
regions`. -/
theorem c5_region_to_sources_order (region : ClipRegion) :
    (ClipSources.ofRegion region).clips =
      (region.image_mask.map ClipSource.Image).toList ++
        [ClipSource.Rectangle region.main] ++
        region.complex_clips.map
          (fun c => ClipSource.RoundedRectangle c.rect c.radii ClipMode.Clip) ∧
    (ClipSources.ofRegion region).clips.length =
      (if region.image_mask.isSome then 1 else 0) + 1 + region.complex_clips.length := by
  rcases region with ⟨origin, main, im, cc⟩
  cases im <;>
    simp [ClipSources.ofRegion, ClipSources.new, List.length_map] <;>
    omega

/-- C6: `ClipRegion.create_for_clip_node` keeps the input rectangle's origin,
puts a rectangle of the input's size at the zero origin as `main`, and
translates the image-mask rectangle (when present) and every complex clip's
rectangle by the negative of the input rectangle's origin. -/
theorem c6_create_for_clip_node_normalizes (rect : Rect)
    (cc : List ComplexClipRegion) (im : Option ImageMask) :
    (ClipRegion.create_for_clip_node rect cc im).origin = ⟨rect.x, rect.y⟩ ∧
    (ClipRegion.create_for_clip_node rect cc im).main = ⟨0, 0, rect.w, rect.h⟩ ∧
    (ClipRegion.create_for_clip_node rect cc im).image_mask =
      im.map (fun m =>
        { m with rect := ⟨m.rect.x - rect.x, m.rect.y - rect.y, m.rect.w, m.rect.h⟩ }) ∧
    (ClipRegion.create_for_clip_node rect cc im).complex_clips =
      cc.map (fun c =>
        { c with rect := ⟨c.rect.x - rect.x, c.rect.y - rect.y, c.rect.w, c.rect.h⟩ }) := by
  refine ⟨rfl, rfl, ?_, ?_⟩
  · cases im with
    | none => rfl
    | some m =>
        simp only [ClipRegion.create_for_clip_node, Option.map_some', Rect.translate]
        rw [sub_eq_add_neg, sub_eq_add_neg]
  · simp only [ClipRegion.create_for_clip_node]
    refine List.map_congr_left fun c _ => ?_
    simp only [Rect.translate]
    rw [sub_eq_add_neg, sub_eq_add_neg]

/-- C8: with an empty source list, `ClipSources::update` is a complete no-op:
the state (in particular the `MaskBounds`) is returned unchanged and no
collaborator call (mask rebuild or image request) is made; a freshly
constructed `ClipSources` starts with both bounds absent. -/
theorem c8_empty_update_noop (cs : ClipSources) (t : LayerToWorldTransform) (dpr : ℚ)
    (h : cs.clips = []) :
    cs.update t dpr = (cs, []) ∧
      (ClipSources.new []).bounds = { outer := none, inner := none } := by
  constructor
  · unfold ClipSources.update
    simp [h]
  · rfl

/-- C8 witness: the empty-list no-op at a concrete state. -/
theorem c8_empty_update_noop_witness :
    (ClipSources.new []).update ⟨1, 0, 0⟩ 1 = (ClipSources.new [], []) ∧
      (ClipSources.new []).bounds = { outer := none, inner := none } :=
  c8_empty_update_noop (ClipSources.new []) ⟨1, 0, 0⟩ 1 rfl

/-- C9: `ClipSources::update` never modifies the source list itself — the
`clips` sequence is identical before and after any call. -/
theorem c9_update_preserves_clips (cs : ClipSources) (t : LayerToWorldTransform) (dpr : ℚ) :
    ((cs.update t dpr).1).clips = cs.clips := by
  unfold ClipSources.update
  split <;> rfl

theorem walkClips_clip_out_mono (clips : List ClipSource) (st : ClipWalkState)
    (h : st.has_clip_out = true) : (walkClips clips st).has_clip_out = true := by
  induction clips generalizing st with
  | nil => exact h
  | cons c rest ih =>
      cases c with
      | Rectangle rect => simp only [walkClips]; exact ih _ h
      | Image mask => simp only [walkClips]; exact ih _ h
      | RoundedRectangle rect radii mode =>
          by_cases hm : mode = ClipMode.ClipOut
          · simp [walkClips, hm]
          · simp only [walkClips, if_neg hm]; exact ih _ h
      | BorderCorner b => simp only [walkClips]; exact ih _ h

theorem walkClips_border_mono (clips : List ClipSource) (st : ClipWalkState)
    (h : st.has_border_clip = true) : (walkClips clips st).has_border_clip = true := by
  induction clips generalizing st with
  | nil => exact h
  | cons c rest ih =>
      cases c with
      | Rectangle rect => simp only [walkClips]; exact ih _ h
      | Image mask => simp only [walkClips]; exact ih _ h
      | RoundedRectangle rect radii mode =>
          by_cases hm : mode = ClipMode.ClipOut
          · simp [walkClips, hm, h]
          · simp only [walkClips, if_neg hm]; exact ih _ h
      | BorderCorner b => simp only [walkClips]; exact ih _ rfl

theorem walkClips_trigger (clips : List ClipSource) (st : ClipWalkState)
    (h : (∃ r rad, ClipSource.RoundedRectangle r rad ClipMode.ClipOut ∈ clips) ∨
         ∃ b, ClipSource.BorderCorner b ∈ clips) :
    (walkClips clips st).has_clip_out = true ∨
      (walkClips clips st).has_border_clip = true := by
  induction clips generalizing st with
  | nil => rcases h with ⟨r, rad, hm⟩ | ⟨b, hm⟩ <;> simp at hm
  | cons c rest ih =>
      cases c with
      | Rectangle rect =>
          simp only [walkClips]
          refine ih _ ?_
          rcases h with ⟨r, rad, hm⟩ | ⟨b, hm⟩
          · rcases List.mem_cons.mp hm with heq | hmem
            · simp at heq
            · exact Or.inl ⟨r, rad, hmem⟩
          · rcases List.mem_cons.mp hm with heq | hmem
            · simp at heq
            · exact Or.inr ⟨b, hmem⟩
      | Image mask =>
          simp only [walkClips]
          refine ih _ ?_
          rcases h with ⟨r, rad, hm⟩ | ⟨b, hm⟩
          · rcases List.mem_cons.mp hm with heq | hmem
            · simp at heq
            · exact Or.inl ⟨r, rad, hmem⟩
          · rcases List.mem_cons.mp hm with heq | hmem
            · simp at heq
            · exact Or.inr ⟨b, hmem⟩
      | RoundedRectangle rect radii mode =>
          by_cases hm : mode = ClipMode.ClipOut
          · simp [walkClips, hm]
          · simp only [walkClips, if_neg hm]
            refine ih _ ?_
            rcases h with ⟨r, rad, hmem⟩ | ⟨b, hmem⟩
            · rcases List.mem_cons.mp hmem with heq | hmem2
              · exfalso
                apply hm
                rcases heq with ⟨⟩
                rfl
              · exact Or.inl ⟨r, rad, hmem2⟩
            · rcases List.mem_cons.mp hmem with heq | hmem2
              · simp at heq
              · exact Or.inr ⟨b, hmem2⟩
      | BorderCorner b2 =>
          simp only [walkClips]
          exact Or.inr (walkClips_border_mono rest _ rfl)

theorem computeLocalBounds_fallback (clips : List ClipSource)
    (h : (walkClips clips initWalkState).has_clip_out = true ∨
         (walkClips clips initWalkState).has_border_clip = true) :
    computeLocalBounds clips =
      { outer := none, inner := some (Geometry.ofLocal Rect.zero) } := by
  rcases h with h | h <;> simp [computeLocalBounds, h]

theorem List.isEmpty_false_of_ne_nil {α : Type} {l : List α} (h : l ≠ []) :
    l.isEmpty = false := by
  cases l with
  | nil => exact absurd rfl h
  | cons a l => rfl

/-- C1: any `ClipOut`-mode rounded rectangle or any border-corner source in
the list makes the first `update` leave `outer` absent and `inner` present
with the zero local rectangle, regardless of the surrounding sources;
moreover the source walk stops immediately upon a `ClipOut`-mode rounded
rectangle. -/
theorem c1_clip_out_or_border_forces_fallback
    (clips : List ClipSource) (t : LayerToWorldTransform) (dpr : ℚ)
    (h : (∃ r rad, ClipSource.RoundedRectangle r rad ClipMode.ClipOut ∈ clips) ∨
         ∃ b, ClipSource.BorderCorner b ∈ clips) :
    (((ClipSources.new clips).update t dpr).1.bounds.outer = none ∧
      ((ClipSources.new clips).update t dpr).1.bounds.inner.map Geometry.local_rect =
        some Rect.zero) ∧
    ∀ rect radii rest st,
      walkClips (ClipSource.RoundedRectangle rect radii ClipMode.ClipOut :: rest) st =
        { st with has_clip_out := true } := by
  constructor
  · have hne : clips ≠ [] := by
      rcases h with ⟨r, rad, hm⟩ | ⟨b, hm⟩ <;> exact List.ne_nil_of_mem hm
    have hcb := computeLocalBounds_fallback clips (walkClips_trigger clips initWalkState h)
    unfold ClipSources.update
    simp [ClipSources.new, List.isEmpty_false_of_ne_nil hne, hcb,
          MaskBounds.update, Geometry.ofLocal]
  · intro rect radii rest st
    simp [walkClips]

/-- C1 witness: a single `ClipOut`-mode rounded rectangle. -/
theorem c1_witness :
    ((ClipSources.new [ClipSource.RoundedRectangle ⟨0, 0, 10, 10⟩
        ⟨⟨0, 0⟩, ⟨0, 0⟩, ⟨0, 0⟩, ⟨0, 0⟩⟩ ClipMode.ClipOut]).update
          ⟨1, 0, 0⟩ 1).1.bounds.outer = none ∧
    ((ClipSources.new [ClipSource.RoundedRectangle ⟨0, 0, 10, 10⟩
        ⟨⟨0, 0⟩, ⟨0, 0⟩, ⟨0, 0⟩, ⟨0, 0⟩⟩ ClipMode.ClipOut]).update
          ⟨1, 0, 0⟩ 1).1.bounds.inner.map Geometry.local_rect = some Rect.zero :=
  (c1_clip_out_or_border_forces_fallback
    [ClipSource.RoundedRectangle ⟨0, 0, 10, 10⟩
      ⟨⟨0, 0⟩, ⟨0, 0⟩, ⟨0, 0⟩, ⟨0, 0⟩⟩ ClipMode.ClipOut] ⟨1, 0, 0⟩ 1
    (Or.inl ⟨⟨0, 0, 10, 10⟩, ⟨⟨0, 0⟩, ⟨0, 0⟩, ⟨0, 0⟩, ⟨0, 0⟩⟩, by decide⟩)).1

theorem walkClips_inner_none (clips : List ClipSource) (st : ClipWalkState)
    (h : st.local_inner = none) : (walkClips clips st).local_inner = none := by
  induction clips generalizing st with
  | nil => exact h
  | cons c rest ih =>
      cases c with
      | Rectangle rect =>
          simp only [walkClips]
          exact ih _ (by simp [h])
      | Image mask => simp only [walkClips]; exact ih _ rfl
      | RoundedRectangle rect radii mode =>
          by_cases hm : mode = ClipMode.ClipOut
          · simp [walkClips, hm, h]
          · simp only [walkClips, if_neg hm]
            exact ih _ (by simp [h])
      | BorderCorner b => simp only [walkClips]; exact ih _ h

theorem walkClips_image_inner_none (clips1 : List ClipSource) (mask : ImageMask)
    (clips2 : List ClipSource) (st : ClipWalkState)
    (h : (walkClips (clips1 ++ ClipSource.Image mask :: clips2) st).has_clip_out = false) :
    (walkClips (clips1 ++ ClipSource.Image mask :: clips2) st).local_inner = none := by
  induction clips1 generalizing st with
  | nil =>
      simp only [List.nil_append, walkClips]
      exact walkClips_inner_none _ _ rfl
  | cons c rest ih =>
      cases c with
      | Rectangle rect =>
          simp only [List.cons_append, walkClips] at h ⊢
          exact ih _ h
      | Image m2 =>
          simp only [List.cons_append, walkClips] at h ⊢
          exact ih _ h
      | RoundedRectangle rect radii mode =>
          by_cases hm : mode = ClipMode.ClipOut
          · simp [List.cons_append, walkClips, hm] at h
          · simp only [List.cons_append, walkClips, if_neg hm] at h ⊢
            exact ih _ h
      | BorderCorner b =>
          simp only [List.cons_append, walkClips] at h ⊢
          exact ih _ h

/-- C7: a lone non-repeating image mask with rectangle `(10,10)-(50,50)`
yields `outer = (10,10)-(50,50)` and a zero-area inner after the first
update; any image source that the walk reaches sets the inner accumulator to
unknown for the rest of the walk; a non-repeating image mask intersects the
outer accumulator with its rectangle while a repeating one leaves the outer
accumulator untouched. -/
theorem c7_image_source_bounds :
    (∀ (key : ℕ) (t : LayerToWorldTransform) (dpr : ℚ),
      (((ClipSources.new [ClipSource.Image ⟨key, ⟨10, 10, 40, 40⟩, false⟩]).update
          t dpr).1.bounds.outer.map Geometry.local_rect = some ⟨10, 10, 40, 40⟩ ∧
       ((ClipSources.new [ClipSource.Image ⟨key, ⟨10, 10, 40, 40⟩, false⟩]).update
          t dpr).1.bounds.inner.map Geometry.local_rect = some Rect.zero)) ∧
    (∀ (clips1 : List ClipSource) (mask : ImageMask) (clips2 : List ClipSource)
        (st : ClipWalkState),
      (walkClips (clips1 ++ ClipSource.Image mask :: clips2) st).has_clip_out = false →
      (walkClips (clips1 ++ ClipSource.Image mask :: clips2) st).local_inner = none) ∧
    (∀ (mask : ImageMask) (rest : List ClipSource) (st : ClipWalkState),
      mask.repeating = false →
      walkClips (ClipSource.Image mask :: rest) st =
        walkClips rest
          { st with
            local_rect := st.local_rect.bind fun r => r.intersection mask.rect
            local_inner := none }) ∧
    (∀ (mask : ImageMask) (rest : List ClipSource) (st : ClipWalkState),
      mask.repeating = true →
      walkClips (ClipSource.Image mask :: rest) st =
        walkClips rest { st with local_inner := none }) := by
  have hloc : ∀ key : ℕ,
      computeLocalBounds [ClipSource.Image ⟨key, ⟨10, 10, 40, 40⟩, false⟩] =
        { outer := some (Geometry.ofLocal ⟨10, 10, 40, 40⟩)
          inner := some (Geometry.ofLocal Rect.zero) } := by
    intro key
    norm_num [computeLocalBounds, walkClips, initWalkState, Rect.intersection,
      Rect.intersects, maxClipRect, MAX_CLIP, Geometry.ofLocal, Rect.zero]
  refine ⟨fun key t dpr => ?_, walkClips_image_inner_none, ?_, ?_⟩
  · unfold ClipSources.update
    simp [ClipSources.new, hloc key, MaskBounds.update, Geometry.ofLocal]
  · intro mask rest st h
    simp [walkClips, h]
  · intro mask rest st h
    simp [walkClips, h]

/-- C7 witness: the reached-image conjunct at a concrete walk. -/
theorem c7_witness :
    (walkClips [ClipSource.Image ⟨0, ⟨0, 0, 5, 5⟩, false⟩] initWalkState).local_inner = none :=
  c7_image_source_bounds.2.1 [] ⟨0, ⟨0, 0, 5, 5⟩, false⟩ [] initWalkState (by decide)

theorem ClipSources.update_bounds_of_isSome (cs : ClipSources)
    (t : LayerToWorldTransform) (d : ℚ)
    (hne : cs.clips.isEmpty = false) (hS : cs.bounds.inner.isSome = true) :
    ((cs.update t d).1).bounds = cs.bounds.update t d := by
  obtain ⟨g, hg⟩ := Option.isSome_iff_exists.mp hS
  unfold ClipSources.update
  simp [hne, hg]

/-- C10: after any update on a nonempty source list the `inner` bound is
present; once present it stays present across later updates; a `ClipOut`
source shows the `outer` bound may be absent after an update. -/
theorem c10_inner_always_present :
    (∀ (cs : ClipSources) (t : LayerToWorldTransform) (dpr : ℚ), cs.clips ≠ [] →
      (((cs.update t dpr).1).bounds.inner).isSome = true) ∧
    (∀ (cs : ClipSources) (t : LayerToWorldTransform) (dpr : ℚ),
      (cs.bounds.inner).isSome = true →
      (((cs.update t dpr).1).bounds.inner).isSome = true) ∧
    (∀ (t : LayerToWorldTransform) (dpr : ℚ),
      ((ClipSources.new [ClipSource.RoundedRectangle ⟨0, 0, 10, 10⟩
          ⟨⟨0, 0⟩, ⟨0, 0⟩, ⟨0, 0⟩, ⟨0, 0⟩⟩ ClipMode.ClipOut]).update t dpr).1.bounds.outer
        = none) := by
  refine ⟨?_, ?_, ?_⟩
  · intro cs t dpr hne
    unfold ClipSources.update
    cases hI : cs.bounds.inner with
    | none =>
        simp [List.isEmpty_false_of_ne_nil hne, hI, MaskBounds.update_inner_isSome,
          computeLocalBounds_inner_isSome]
    | some g =>
        simp [List.isEmpty_false_of_ne_nil hne, hI, MaskBounds.update_inner_isSome]
  · intro cs t dpr hS
    unfold ClipSources.update
    cases hE : cs.clips.isEmpty with
    | true => simpa using hS
    | false =>
        cases hI : cs.bounds.inner with
        | none => rw [hI] at hS; simp at hS
        | some g => simp [hI, MaskBounds.update_inner_isSome]
  · intro t dpr
    unfold ClipSources.update
    simp [ClipSources.new, MaskBounds.update]
    decide

/-- C10 witness: a single rectangle source, first update. -/
theorem c10_witness :
    ((((ClipSources.new [ClipSource.Rectangle ⟨0, 0, 4, 4⟩]).update
        ⟨1, 0, 0⟩ 1).1).bounds.inner).isSome = true :=
  c10_inner_always_present.1 (ClipSources.new [ClipSource.Rectangle ⟨0, 0, 4, 4⟩])
    ⟨1, 0, 0⟩ 1 (by decide)

/-- C4: a second update with the same transform and pixel ratio leaves the
`MaskBounds` identical, and after a first update any later update (with any
transform and pixel ratio) leaves the local-space rectangles of both bounds
untouched. -/
theorem c4_update_idempotent (cs : ClipSources) (t : LayerToWorldTransform) (dpr : ℚ) :
    ((((cs.update t dpr).1).update t dpr).1).bounds = ((cs.update t dpr).1).bounds ∧
    ∀ (t2 : LayerToWorldTransform) (dpr2 : ℚ),
      ((((cs.update t dpr).1).update t2 dpr2).1).bounds.outer.map Geometry.local_rect =
        ((cs.update t dpr).1).bounds.outer.map Geometry.local_rect ∧
      ((((cs.update t dpr).1).update t2 dpr2).1).bounds.inner.map Geometry.local_rect =
        ((cs.update t dpr).1).bounds.inner.map Geometry.local_rect := by
  cases hE : cs.clips.isEmpty with
  | true =>
      have hupd : ∀ (t2 : LayerToWorldTransform) (d2 : ℚ), cs.update t2 d2 = (cs, []) := by
        intro t2 d2
        unfold ClipSources.update
        simp [hE]
      simp [hupd]
  | false =>
      have hclips1 : ((cs.update t dpr).1).clips = cs.clips :=
        ClipSources.update_clips_eq cs t dpr
      have hbounds1 : ((cs.update t dpr).1).bounds =
          (if cs.bounds.inner.isNone then computeLocalBounds cs.clips
           else cs.bounds).update t dpr := by
        unfold ClipSources.update
        simp [hE]
      have hb0 : (if cs.bounds.inner.isNone then computeLocalBounds cs.clips
          else cs.bounds).inner.isSome = true := by
        split
        · exact computeLocalBounds_inner_isSome cs.clips
        · rename_i hni
          cases hI : cs.bounds.inner with
          | none => exact absurd (by simp [hI]) hni
          | some g => simp [hI]
      have hsome1 : ((cs.update t dpr).1).bounds.inner.isSome = true := by
        rw [hbounds1, MaskBounds.update_inner_isSome]
        exact hb0
      have hbounds2 : ∀ (t2 : LayerToWorldTransform) (d2 : ℚ),
          ((((cs.update t dpr).1).update t2 d2).1).bounds =
            ((cs.update t dpr).1).bounds.update t2 d2 := by
        intro t2 d2
        exact ClipSources.update_bounds_of_isSome _ t2 d2 (by rw [hclips1]; exact hE) hsome1
      refine ⟨?_, fun t2 d2 => ⟨?_, ?_⟩⟩
      · rw [hbounds2, hbounds1, MaskBounds.update_update]
      · rw [hbounds2, MaskBounds.update_outer_local]
      · rw [hbounds2, MaskBounds.update_inner_local]

theorem walkClips_only_rectangular (clips : List ClipSource) (st : ClipWalkState)
    (h : ∀ c ∈ clips, OnlyRectangular c) :
    (walkClips clips st).has_clip_out = st.has_clip_out ∧
    (walkClips clips st).has_border_clip = st.has_border_clip ∧
    (walkClips clips st).local_rect =
      (sourceRects clips).foldl (fun acc r => acc.bind fun a => a.intersection r)
        st.local_rect := by
  induction clips generalizing st with
  | nil => exact ⟨rfl, rfl, rfl⟩
  | cons c rest ih =>
      have hrest : ∀ c2 ∈ rest, OnlyRectangular c2 :=
        fun c2 hc => h c2 (List.mem_cons_of_mem _ hc)
      cases c with
      | Rectangle rect =>
          simp only [walkClips, sourceRects, List.filterMap_cons, List.foldl_cons]
          exact ih _ hrest
      | RoundedRectangle rect radii mode =>
          have hmode : mode = ClipMode.Clip := by
            have := h _ (List.mem_cons_self _ _)
            simpa [OnlyRectangular] using this
          subst hmode
          simp only [walkClips, sourceRects, List.filterMap_cons, List.foldl_cons,
            reduceCtorEq, if_false]
          exact ih _ hrest
      | Image mask => exact absurd (h _ (List.mem_cons_self _ _)) (by simp [OnlyRectangular])
      | BorderCorner b => exact absurd (h _ (List.mem_cons_self _ _)) (by simp [OnlyRectangular])

theorem computeLocalBounds_only_rectangular (clips : List ClipSource)
    (h : ∀ c ∈ clips, OnlyRectangular c) :
    (computeLocalBounds clips).outer.map Geometry.local_rect =
      some ((exactIntersection (maxClipRect :: sourceRects clips)).getD Rect.zero) := by
  obtain ⟨h1, h2, h3⟩ := walkClips_only_rectangular clips initWalkState h
  have hco : (walkClips clips initWalkState).has_clip_out = false := by rw [h1]; rfl
  have hbc : (walkClips clips initWalkState).has_border_clip = false := by rw [h2]; rfl
  simp only [computeLocalBounds, hco, hbc, Bool.or_self, Bool.false_eq_true,
    if_false, Option.map_some', Geometry.ofLocal]
  rw [h3]
  rfl

/-- C2 counterexample: a single `Rectangle` source wider than the `MAX_CLIP`
range.  The exact intersection of all sources' rectangles is that rectangle
itself, but the computed local outer bound is the initial ±1000000 rectangle,
so the claim as stated fails. -/
theorem c2_counterexample :
    ¬ (((ClipSources.new
          [ClipSource.Rectangle ⟨-2000000, -2000000, 4000000, 4000000⟩]).update
            ⟨1, 0, 0⟩ 1).1.bounds.outer.map Geometry.local_rect =
        some ((exactIntersection (sourceRects
          [ClipSource.Rectangle ⟨-2000000, -2000000, 4000000, 4000000⟩])).getD
            Rect.zero)) := by
  norm_num [ClipSources.update, ClipSources.new, computeLocalBounds, walkClips,
    initWalkState, maxClipRect, MAX_CLIP, Rect.intersection, Rect.intersects,
    MaskBounds.update, Geometry.ofLocal, exactIntersection, sourceRects, Rect.zero,
    Rect.mk.injEq, List.filterMap_cons, List.filterMap_nil, List.foldl_cons,
    List.foldl_nil, max_def, min_def]

/-- C2 (amended): for a nonempty source list of only `Rectangle` and
`Clip`-mode `RoundedRectangle` entries, the first update leaves the local
outer bound present and equal to the exact intersection of the initial
±1000000 accumulator rectangle with all of the sources' rectangles (rounded
rectangles contributing their bounding rectangle), an empty intersection
being represented as the zero rectangle. -/
theorem c2_outer_is_intersection (clips : List ClipSource)
    (t : LayerToWorldTransform) (dpr : ℚ)
    (hne : clips ≠ []) (h : ∀ c ∈ clips, OnlyRectangular c) :
    ((ClipSources.new clips).update t dpr).1.bounds.outer.map Geometry.local_rect =
      some ((exactIntersection (maxClipRect :: sourceRects clips)).getD Rect.zero) := by
  have hcb := computeLocalBounds_only_rectangular clips h
  have hb : (((ClipSources.new clips).update t dpr).1).bounds =
      (computeLocalBounds clips).update t dpr := by
    unfold ClipSources.update
    simp [ClipSources.new, List.isEmpty_false_of_ne_nil hne]
  rw [hb, MaskBounds.update_outer_local]
  exact hcb

/-- C2 witness: a rectangle and a `Clip`-mode rounded rectangle. -/
theorem c2_witness :
    ((ClipSources.new [ClipSource.Rectangle ⟨0, 0, 100, 100⟩,
        ClipSource.RoundedRectangle ⟨10, 10, 80, 80⟩ ⟨⟨2, 2⟩, ⟨2, 2⟩, ⟨2, 2⟩, ⟨2, 2⟩⟩
          ClipMode.Clip]).update ⟨1, 0, 0⟩ 1).1.bounds.outer.map Geometry.local_rect =
      some ⟨10, 10, 80, 80⟩ := by
  rw [c2_outer_is_intersection _ ⟨1, 0, 0⟩ 1 (by simp) (by decide)]
  norm_num [exactIntersection, sourceRects, maxClipRect, MAX_CLIP,
    Rect.intersection, Rect.intersects, Rect.zero, Rect.mk.injEq,
    List.filterMap_cons, List.filterMap_nil, List.foldl_cons, List.foldl_nil,
    max_def, min_def]

theorem Rect.subset_rfl (a : Rect) : a.Subset a :=
  Or.inr ⟨le_refl _, le_refl _, le_refl _, le_refl _⟩

theorem Rect.intersection_eq_some {a b c : Rect} (h : a.intersection b = some c) :
    c.x = max a.x b.x ∧ c.y = max a.y b.y ∧
    c.x + c.w = min (a.x + a.w) (b.x + b.w) ∧
    c.y + c.h = min (a.y + a.h) (b.y + b.h) ∧
    a.x < b.x + b.w ∧ b.x < a.x + a.w ∧ a.y < b.y + b.h ∧ b.y < a.y + a.h := by
  unfold Rect.intersection at h
  split at h
  · rename_i hint
    rw [Rect.intersects_iff] at hint
    injection h with h2
    subst h2
    exact ⟨rfl, rfl, by ring, by ring, hint.1, hint.2.1, hint.2.2.1, hint.2.2.2⟩
  · cases h

theorem Rect.intersection_isSome_of {a b : Rect}
    (h1 : a.x < b.x + b.w) (h2 : b.x < a.x + a.w)
    (h3 : a.y < b.y + b.h) (h4 : b.y < a.y + a.h) :
    ∃ c, a.intersection b = some c := by
  unfold Rect.intersection
  rw [if_pos (Rect.intersects_iff.mpr ⟨h1, h2, h3, h4⟩)]
  exact ⟨_, rfl⟩

theorem Rect.isEmpty_inter_of_left {a e a2 : Rect} (ha : a.IsEmptyRect)
    (hc : a.intersection e = some a2) : a2.IsEmptyRect := by
  obtain ⟨hx, hy, hxw, hyh, _, _, _, _⟩ := Rect.intersection_eq_some hc
  rcases ha with hw | hh
  · exact Or.inl (by
      have h1 := min_le_left (a.x + a.w) (e.x + e.w)
      have h2 := le_max_left a.x e.x
      linarith)
  · exact Or.inr (by
      have h1 := min_le_left (a.y + a.h) (e.y + e.h)
      have h2 := le_max_left a.y e.y
      linarith)

theorem Rect.isEmpty_inter_of_right {a e a2 : Rect} (he : e.IsEmptyRect)
    (hc : a.intersection e = some a2) : a2.IsEmptyRect := by
  obtain ⟨hx, hy, hxw, hyh, _, _, _, _⟩ := Rect.intersection_eq_some hc
  rcases he with hw | hh
  · exact Or.inl (by
      have h1 := min_le_right (a.x + a.w) (e.x + e.w)
      have h2 := le_max_right a.x e.x
      linarith)
  · exact Or.inr (by
      have h1 := min_le_right (a.y + a.h) (e.y + e.h)
      have h2 := le_max_right a.y e.y
      linarith)

theorem optSubset_inter_mono {la lb : Option Rect} {e r : Rect}
    (h : OptSubset la lb) (he : e.Subset r) :
    OptSubset (la.bind fun a => a.intersection e) (lb.bind fun b => b.intersection r) := by
  cases la with
  | none => trivial
  | some a =>
      show OptSubset (a.intersection e) (lb.bind fun b => b.intersection r)
      cases hae : a.intersection e with
      | none =>
          cases lb with
          | none => trivial
          | some b => cases b.intersection r <;> trivial
      | some a2 =>
          obtain ⟨hx, hy, hxw, hyh, hi1, hi2, hi3, hi4⟩ := Rect.intersection_eq_some hae
          cases lb with
          | none => exact Rect.isEmpty_inter_of_left h hae
          | some b =>
              show OptSubset (some a2) (b.intersection r)
              rcases h with hemp | hcomp
              · have ha2 := Rect.isEmpty_inter_of_left hemp hae
                cases b.intersection r with
                | none => exact ha2
                | some b2 => exact Or.inl ha2
              · rcases he with hemp | hecomp
                · have ha2 := Rect.isEmpty_inter_of_right hemp hae
                  cases b.intersection r with
                  | none => exact ha2
                  | some b2 => exact Or.inl ha2
                · obtain ⟨hb1, hb2, hb3, hb4⟩ := hcomp
                  obtain ⟨hr1, hr2, hr3, hr4⟩ := hecomp
                  obtain ⟨b2, hbr⟩ := Rect.intersection_isSome_of
                    (a := b) (b := r) (by linarith) (by linarith) (by linarith) (by linarith)
                  rw [hbr]
                  obtain ⟨hbx, hby, hbxw, hbyh, _, _, _, _⟩ := Rect.intersection_eq_some hbr
                  refine Or.inr ⟨?_, ?_, ?_, ?_⟩
                  · rw [hbx, hx]; exact max_le_max hb1 hr1
                  · rw [hby, hy]; exact max_le_max hb2 hr2
                  · rw [hbxw, hxw]; exact min_le_min hb3 hr3
                  · rw [hbyh, hyh]; exact min_le_min hb4 hr4

theorem extract_inner_rect_safe_subset {rect : Rect} {radii : BorderRadius} {e : Rect}
    (h : extract_inner_rect_safe rect radii = some e) : e.Subset rect := by
  simp only [extract_inner_rect_safe] at h
  split at h
  · injection h with h2
    subst h2
    have hxl : (0 : ℚ) ≤ max 0 (max radii.top_left.width radii.bottom_left.width) :=
      le_max_left 0 _
    have hxr : (0 : ℚ) ≤ max 0 (max radii.top_right.width radii.bottom_right.width) :=
      le_max_left 0 _
    have hyt : (0 : ℚ) ≤ max 0 (max radii.top_left.height radii.top_right.height) :=
      le_max_left 0 _
    have hyb : (0 : ℚ) ≤ max 0 (max radii.bottom_left.height radii.bottom_right.height) :=
      le_max_left 0 _
    refine Or.inr ⟨?_, ?_, ?_, ?_⟩ <;>
      · dsimp only
        linarith
  · cases h

theorem walkClips_inner_subset (clips : List ClipSource) (st : ClipWalkState)
    (h : OptSubset st.local_inner st.local_rect) :
    OptSubset (walkClips clips st).local_inner (walkClips clips st).local_rect := by
  induction clips generalizing st with
  | nil => exact h
  | cons c rest ih =>
      cases c with
      | Rectangle rect =>
          simp only [walkClips]
          exact ih _ (optSubset_inter_mono h (Rect.subset_rfl rect))
      | Image mask =>
          simp only [walkClips]
          exact ih _ trivial
      | RoundedRectangle rect radii mode =>
          by_cases hm : mode = ClipMode.ClipOut
          · simp only [walkClips, if_pos hm]
            exact h
          · simp only [walkClips, if_neg hm]
            cases hext : extract_inner_rect_safe rect radii with
            | none =>
                refine ih _ ?_
                have hnone : (st.local_inner.bind fun r =>
                    (none : Option Rect).bind fun inner => r.intersection inner) = none := by
                  cases st.local_inner <;> rfl
                show OptSubset (st.local_inner.bind fun r =>
                  (none : Option Rect).bind fun inner => r.intersection inner) _
                rw [hnone]
                trivial
            | some einner =>
                refine ih _ ?_
                have heq : (st.local_inner.bind fun r =>
                    (some einner).bind fun inner => r.intersection inner) =
                    st.local_inner.bind fun r => r.intersection einner := by
                  cases st.local_inner <;> rfl
                show OptSubset (st.local_inner.bind fun r =>
                  (some einner).bind fun inner => r.intersection inner) _
                rw [heq]
                exact optSubset_inter_mono h (extract_inner_rect_safe_subset hext)
      | BorderCorner b =>
          simp only [walkClips]
          exact ih _ h

theorem computeLocalBounds_inner_subset_outer (clips : List ClipSource) {go gi : Geometry}
    (ho : (computeLocalBounds clips).outer = some go)
    (hi : (computeLocalBounds clips).inner = some gi) :
    gi.local_rect.Subset go.local_rect := by
  have hw := walkClips_inner_subset clips initWalkState (Rect.subset_rfl maxClipRect)
  cases hfb : (walkClips clips initWalkState).has_clip_out ||
      (walkClips clips initWalkState).has_border_clip with
  | true => simp [computeLocalBounds, hfb] at ho
  | false =>
      simp only [computeLocalBounds, hfb, Bool.false_eq_true, if_false,
        Option.some.injEq] at ho hi
      rw [← ho, ← hi]
      simp only [Geometry.ofLocal]
      cases hli : (walkClips clips initWalkState).local_inner with
      | none => exact Or.inl (Or.inl (le_refl 0))
      | some a =>
          rw [hli] at hw
          cases hlr : (walkClips clips initWalkState).local_rect with
          | none =>
              rw [hlr] at hw
              exact Or.inl hw
          | some b =>
              rw [hlr] at hw
              exact hw

theorem MaskBounds.update_outer_cases {mb : MaskBounds} {t : LayerToWorldTransform}
    {d : ℚ} {g : Geometry} (h : (mb.update t d).outer = some g) :
    ∃ g0, mb.outer = some g0 ∧ g.local_rect = g0.local_rect := by
  rcases mb with ⟨o, i⟩
  cases o with
  | none => simp [MaskBounds.update] at h
  | some g0 =>
      simp only [MaskBounds.update, Option.map_some', Option.some.injEq] at h
      exact ⟨g0, rfl, by rw [← h]⟩

theorem MaskBounds.update_inner_cases {mb : MaskBounds} {t : LayerToWorldTransform}
    {d : ℚ} {g : Geometry} (h : (mb.update t d).inner = some g) :
    ∃ g0, mb.inner = some g0 ∧ g.local_rect = g0.local_rect := by
  rcases mb with ⟨o, i⟩
  cases i with
  | none => simp [MaskBounds.update] at h
  | some g0 =>
      simp only [MaskBounds.update, Option.map_some', Option.some.injEq] at h
      exact ⟨g0, rfl, by rw [← h]⟩

theorem update_preserves_inner_subset (cs : ClipSources) (t : LayerToWorldTransform) (dpr : ℚ)
    (h : ∀ go gi, cs.bounds.outer = some go → cs.bounds.inner = some gi →
      gi.local_rect.Subset go.local_rect) :
    ∀ go gi, ((cs.update t dpr).1).bounds.outer = some go →
      ((cs.update t dpr).1).bounds.inner = some gi →
      gi.local_rect.Subset go.local_rect := by
  intro go gi ho hi
  cases hE : cs.clips.isEmpty with
  | true =>
      have hu : cs.update t dpr = (cs, []) := by
        unfold ClipSources.update
        simp [hE]
      rw [hu] at ho hi
      exact h go gi ho hi
  | false =>
      cases hI : cs.bounds.inner with
      | none =>
          have hb : ((cs.update t dpr).1).bounds = (computeLocalBounds cs.clips).update t dpr := by
            unfold ClipSources.update
            simp [hE, hI]
          rw [hb] at ho hi
          obtain ⟨go0, hgo0, hlo⟩ := MaskBounds.update_outer_cases ho
          obtain ⟨gi0, hgi0, hli⟩ := MaskBounds.update_inner_cases hi
          rw [hlo, hli]
          exact computeLocalBounds_inner_subset_outer cs.clips hgo0 hgi0
      | some g =>
          have hb : ((cs.update t dpr).1).bounds = cs.bounds.update t dpr :=
            ClipSources.update_bounds_of_isSome cs t dpr hE (by simp [hI])
          rw [hb] at ho hi
          obtain ⟨go0, hgo0, hlo⟩ := MaskBounds.update_outer_cases ho
          obtain ⟨gi0, hgi0, hli⟩ := MaskBounds.update_inner_cases hi
          rw [hlo, hli]
          exact h go0 gi0 hgo0 hgi0

theorem updateSeq_preserves_inner_subset (args : List (LayerToWorldTransform × ℚ))
    (cs : ClipSources)
    (h : ∀ go gi, cs.bounds.outer = some go → cs.bounds.inner = some gi →
      gi.local_rect.Subset go.local_rect) :
    ∀ go gi, (cs.updateSeq args).bounds.outer = some go →
      (cs.updateSeq args).bounds.inner = some gi →
      gi.local_rect.Subset go.local_rect := by
  induction args generalizing cs with
  | nil => exact h
  | cons a rest ih =>
      rcases a with ⟨t, d⟩
      simp only [ClipSources.updateSeq]
      exact ih _ (update_preserves_inner_subset cs t d h)

/-- C3: after any sequence of updates of a freshly built `ClipSources`,
whenever both local-space bounds are present the inner rectangle is contained
in the outer rectangle. -/
theorem c3_inner_subset_outer (clips : List ClipSource)
    (args : List (LayerToWorldTransform × ℚ)) (go gi : Geometry)
    (ho : ((ClipSources.new clips).updateSeq args).bounds.outer = some go)
    (hi : ((ClipSources.new clips).updateSeq args).bounds.inner = some gi) :
    gi.local_rect.Subset go.local_rect :=
  updateSeq_preserves_inner_subset args (ClipSources.new clips)
    (fun go2 gi2 ho2 _ => absurd ho2 (by simp [ClipSources.new])) go gi ho hi

/-- C3 witness: one rectangle source, one update with the identity transform;
both bounds hold the rectangle itself. -/
theorem c3_witness :
    Rect.Subset ⟨0, 0, 100, 100⟩ ⟨0, 0, 100, 100⟩ :=
  c3_inner_subset_outer [ClipSource.Rectangle ⟨0, 0, 100, 100⟩] [(⟨1, 0, 0⟩, 1)]
    ⟨⟨0, 0, 100, 100⟩, ⟨0, 0, 100, 100⟩⟩ ⟨⟨0, 0, 100, 100⟩, ⟨0, 0, 100, 100⟩⟩
    (by norm_num [ClipSources.updateSeq, ClipSources.update, ClipSources.new,
      computeLocalBounds, walkClips, initWalkState, maxClipRect, MAX_CLIP,
      Rect.intersection, Rect.intersects, MaskBounds.update, Geometry.ofLocal,
      projectRect, max_def, min_def])
    (by norm_num [ClipSources.updateSeq, ClipSources.update, ClipSources.new,
      computeLocalBounds, walkClips, initWalkState, maxClipRect, MAX_CLIP,
      Rect.intersection, Rect.intersects, MaskBounds.update, Geometry.ofLocal,
      projectRect, max_def, min_def])
